import Mathlib

/-!
Shallow embedding of the `et-decode` analytics tracker, covering the two
program variants `src/decode.py` (namespace `Decode`) and `src/decode2.py`
(namespace `Decode2`).

Both variants unpack each decoded 64-byte packet as sixteen little-endian
`i32` fields and use the first eight of them
(`timestamp, eType, eFlags, pos_x, pos_y, pos_z, angle_x, angle_y`), so a
decoded record is modelled by the structure `Record` below.  `eFlags` is
taken as the unsigned 32-bit representative of the unpacked signed value:
the program only ever uses it through `(eFlags >> k) & 0xFF` with
`k + 8 ≤ 32`, and on those byte fields Python's arithmetic shift on the
signed value agrees with the logical shift on the unsigned representative.

Python floats are modelled exactly: integer arithmetic stays in `Int`,
the float division `hits / shots` is modelled in `ℚ`, and the velocity
`math.sqrt(...) / Δt` is modelled in `ℝ` via `Real.sqrt`.
-/

/-- The first eight of the sixteen `i32` fields unpacked from one decoded
packet by `_process_packet` (`struct.unpack("i" * 16, packet)`). -/
structure Record where
  timestamp : Int
  eType : Int
  eFlags : Nat
  pos_x : Int
  pos_y : Int
  pos_z : Int
  angle_x : Int
  angle_y : Int

/-- One per-player `weapon_usage` entry `{"shots": ..., "hits": ...}`. -/
structure Usage where
  shots : Nat
  hits : Nat

/-- One buffered/stored row of the `player_actions` table: the 13-tuple
passed to `_store_action`.  The weapon column is an integer weapon id in
`decode.py` and a weapon name string in `decode2.py`, hence the type
parameter `W`. -/
structure ActionRow (W : Type) where
  timestamp : Int
  player_id : Nat
  player_name : String
  action : String
  weapon : Option W
  pos_x : Option Int
  pos_y : Option Int
  pos_z : Option Int
  angle_x : Option Int
  angle_y : Option Int
  angle_z : Option Int
  velocity : Option ℝ
  accuracy : Option ℚ

/-- Python-dict lookup on an association list (`d[k]` / `k in d`). -/
def lookupM {α : Type _} : List (Nat × α) → Nat → Option α
  | [], _ => none
  | (k', v) :: rest, k => if k = k' then some v else lookupM rest k

/-- Python-dict assignment `d[k] = v` on an association list. -/
def insertM {α : Type _} (m : List (Nat × α)) (k : Nat) (v : α) : List (Nat × α) :=
  (k, v) :: m.filter (fun p => p.1 != k)

/-- The 64-entry `WEAPON_TABLE` dict literal shared by both variants:
ids 0–25 carry real weapon names, ids 26–63 are explicitly `"Unknown"`. -/
def WEAPON_TABLE : List (Nat × String) :=
  [(0, "None"), (1, "Knife"), (2, "Luger"), (3, "Colt"), (4, "MP40"),
   (5, "Thompson"), (6, "Sten"), (7, "FG42"), (8, "Panzerfaust"),
   (9, "Flamethrower"), (10, "Grenade"), (11, "Grenade Launcher"),
   (12, "Mortar"), (13, "Dynamite"), (14, "Satchel Charge"),
   (15, "Airstrike Marker"), (16, "Landmine"), (17, "Smoke Grenade"),
   (18, "MG42"), (19, "Garand"), (20, "K43"), (21, "BAR"),
   (22, "M1 Carbine"), (23, "PPSH"), (24, "Panzerschreck"),
   (25, "Mosin-Nagant"), (26, "Unknown"), (27, "Unknown"), (28, "Unknown"),
   (29, "Unknown"), (30, "Unknown"), (31, "Unknown"), (32, "Unknown"),
   (33, "Unknown"), (34, "Unknown"), (35, "Unknown"), (36, "Unknown"),
   (37, "Unknown"), (38, "Unknown"), (39, "Unknown"), (40, "Unknown"),
   (41, "Unknown"), (42, "Unknown"), (43, "Unknown"), (44, "Unknown"),
   (45, "Unknown"), (46, "Unknown"), (47, "Unknown"), (48, "Unknown"),
   (49, "Unknown"), (50, "Unknown"), (51, "Unknown"), (52, "Unknown"),
   (53, "Unknown"), (54, "Unknown"), (55, "Unknown"), (56, "Unknown"),
   (57, "Unknown"), (58, "Unknown"), (59, "Unknown"), (60, "Unknown"),
   (61, "Unknown"), (62, "Unknown"), (63, "Unknown")]

namespace Decode

/-- `MAX_WEAPONS = 64` in `decode.py`. -/
def MAX_WEAPONS : Nat := 64

/-- `decode.py` `_extract_weapon`: `weapon_id = (eFlags >> 8) & 0xFF`,
returned when inside `[0, MAX_WEAPONS)` and replaced by `0` otherwise.
The `Bool` component records whether the `Invalid weapon ID` warning is
printed, which happens exactly when the id is out of range. -/
def extract_weapon (eFlags : Nat) : Nat × Bool :=
  let weapon_id := (eFlags >>> 8) &&& 0xFF
  if weapon_id < MAX_WEAPONS then (weapon_id, false) else (0, true)

/-- `decode.py` `_extract_player_id`: `(eFlags >> 16) & 0xFF`. -/
def extract_player_id (eFlags : Nat) : Nat :=
  (eFlags >>> 16) &&& 0xFF

/-- The mutable state of one `ETPlayerMonitor` session in `decode.py`:
the three per-player dicts, the in-memory actions buffer, and the batches
already flushed to the database, in flush order. -/
structure State where
  weapon_usage : List (Nat × Usage)
  player_positions : List (Nat × (Int × Int × Int × Int))
  aim_patterns : List (Nat × List (Int × Int × Int × Int))
  actions_buffer : List (ActionRow Nat)
  flushed : List (List (ActionRow Nat))

/-- The state built by `ETPlayerMonitor.__init__`: every dict and the
buffer start empty. -/
def initState : State := ⟨[], [], [], [], []⟩

/-- `_store_action`: append the row to `actions_buffer` and flush the
whole buffer to the database once it holds at least 100 rows. -/
def store_action (s : State) (a : ActionRow Nat) : State :=
  let buf := s.actions_buffer ++ [a]
  if 100 ≤ buf.length then
    { s with actions_buffer := [], flushed := s.flushed ++ [buf] }
  else
    { s with actions_buffer := buf }

/-- All rows the session has recorded so far, in emission order:
the flushed batches followed by the still-buffered rows. -/
def storedAll (s : State) : List (ActionRow Nat) :=
  s.flushed.flatten ++ s.actions_buffer

/-- `_interpret_position`: when a previous `(x, y, z, timestamp)` is
stored for the player, emit a `move` row whose velocity is the Euclidean
distance to the new position divided by the timestamp delta when that
delta is positive and `0` otherwise; always overwrite the stored last
position afterwards. -/
noncomputable def interpret_position (s : State) (timestamp : Int) (player_id : Nat)
    (player_name : String) (pos_x pos_y pos_z : Int) : State :=
  let s' :=
    match lookupM s.player_positions player_id with
    | some last_pos =>
        let distance : ℝ :=
          Real.sqrt (((pos_x - last_pos.1 : Int) : ℝ) ^ 2 +
            ((pos_y - last_pos.2.1 : Int) : ℝ) ^ 2 +
            ((pos_z - last_pos.2.2.1 : Int) : ℝ) ^ 2)
        let velocity : ℝ :=
          if 0 < timestamp - last_pos.2.2.2 then
            distance / ((timestamp - last_pos.2.2.2 : Int) : ℝ)
          else 0
        store_action s
          ⟨timestamp, player_id, player_name, "move", none, some pos_x, some pos_y,
            some pos_z, none, none, none, some velocity, none⟩
    | none => s
  { s' with
    player_positions := insertM s'.player_positions player_id (pos_x, pos_y, pos_z, timestamp) }

/-- `_interpret_angles`: append `(angle_x, angle_y, angle_z, timestamp)`
to the player's `aim_patterns` history; once the history has at least two
entries, emit an `aim_consistency` row when the sum of the absolute
per-axis differences between the two most recent entries is below the
`0.01` threshold. -/
def interpret_angles (s : State) (timestamp : Int) (player_id : Nat)
    (player_name : String) (angle_x angle_y angle_z : Int) : State :=
  let hist := (lookupM s.aim_patterns player_id).getD [] ++ [(angle_x, angle_y, angle_z, timestamp)]
  let s' := { s with aim_patterns := insertM s.aim_patterns player_id hist }
  if 2 ≤ hist.length then
    let last_angle := (hist.get? (hist.length - 2)).getD (0, 0, 0, 0)
    let angle_change : Int :=
      |last_angle.1 - angle_x| + |last_angle.2.1 - angle_y| + |last_angle.2.2.1 - angle_z|
    if (angle_change : ℚ) < 1 / 100 then
      store_action s'
        ⟨timestamp, player_id, player_name, "aim_consistency", none, none, none, none,
          some angle_x, some angle_y, some angle_z, none, none⟩
    else s'
  else s'

/-- `_interpret_weapon_usage` of `decode.py`: bail out when the extracted
weapon id is the `0` sentinel; otherwise record `fire` (`eType == 1`,
guarded by membership in `weapon_usage`), `hit` (`eType == 2`, same
membership guard, with `accuracy = hits / shots`) or `reload`
(`eType == 3`).  The `hit` branch divides `hits` by `shots` without a
`shots > 0` guard — in Python this would raise `ZeroDivisionError`; the
branch is only ever reached if `weapon_usage` contains the player, which
no code path brings about. -/
def interpret_weapon_usage (s : State) (timestamp : Int) (player_id : Nat)
    (player_name : String) (eType : Int) (eFlags : Nat) : State :=
  let weapon := (extract_weapon eFlags).1
  if weapon = 0 then s
  else if eType = 1 then
    if weapon ≠ 0 ∧ (lookupM s.weapon_usage player_id).isSome then
      match lookupM s.weapon_usage player_id with
      | some u =>
          let u' : Usage := ⟨u.shots + 1, u.hits⟩
          let s' := { s with weapon_usage := insertM s.weapon_usage player_id u' }
          store_action s'
            ⟨timestamp, player_id, player_name, "fire", some weapon, none, none, none,
              none, none, none, none, none⟩
      | none => s
    else s
  else if eType = 2 then
    match lookupM s.weapon_usage player_id with
    | some u =>
        let u' : Usage := ⟨u.shots, u.hits + 1⟩
        let s' := { s with weapon_usage := insertM s.weapon_usage player_id u' }
        let accuracy : ℚ := (u'.hits : ℚ) / (u'.shots : ℚ)
        store_action s'
          ⟨timestamp, player_id, player_name, "hit", some weapon, none, none, none,
            none, none, none, none, some accuracy⟩
    | none => s
  else if eType = 3 then
    store_action s
      ⟨timestamp, player_id, player_name, "reload", some weapon, none, none, none,
        none, none, none, none, none⟩
  else s

/-- `_process_packet` on one decoded record: extract the player id, then
run position, angle (with `angle_z` hard-coded to `0`) and weapon-usage
interpretation in that order. -/
noncomputable def process_packet (s : State) (r : Record) : State :=
  let player_id := extract_player_id r.eFlags
  let player_name := "Player" ++ toString player_id
  let s1 := interpret_position s r.timestamp player_id player_name r.pos_x r.pos_y r.pos_z
  let s2 := interpret_angles s1 r.timestamp player_id player_name r.angle_x r.angle_y 0
  interpret_weapon_usage s2 r.timestamp player_id player_name r.eType r.eFlags

/-- The `parse_demo` loop: process the decoded records in file order. -/
noncomputable def process_all (s : State) : List Record → State
  | [] => s
  | r :: rs => process_all (process_packet s r) rs

/-- `close`: flush the remaining buffer if and only if it is non-empty. -/
def close (s : State) : State :=
  if s.actions_buffer.isEmpty then s
  else { s with actions_buffer := [], flushed := s.flushed ++ [s.actions_buffer] }

/-- Driving `_store_action` over a whole sequence of rows. -/
def storeAll (s : State) : List (ActionRow Nat) → State
  | [] => s
  | a :: as => storeAll (store_action s a) as

end Decode

namespace Decode2

/-- `decode2.py` `_extract_weapon`: look `(eFlags >> 8) & 0xFF` up in
`WEAPON_TABLE`, defaulting to the name `"Unknown"`.  The function performs
no logging at all, so the `Bool` component — whether a validation warning
is signalled — is constantly `false`. -/
def extract_weapon (eFlags : Nat) : String × Bool :=
  ((lookupM WEAPON_TABLE ((eFlags >>> 8) &&& 0xFF)).getD "Unknown", false)

/-- `decode2.py` `_extract_player_id`: `eFlags & 0xFF`. -/
def extract_player_id (eFlags : Nat) : Nat :=
  eFlags &&& 0xFF

/-- The mutable state of one `ETPlayerMonitor` session in `decode2.py`:
the three per-player dicts and the rows inserted into the database, in
insertion order (`decode2.py` has no buffer: `_store_action` executes the
`INSERT` immediately). -/
structure State where
  weapon_usage : List (Nat × Usage)
  player_positions : List (Nat × (Int × Int × Int × Int))
  aim_patterns : List (Nat × List (Int × Int × Int × Int))
  stored : List (ActionRow String)

/-- The state built by `ETPlayerMonitor.__init__` of `decode2.py`. -/
def initState : State := ⟨[], [], [], []⟩

/-- `decode2.py` `_store_action`: insert the row into the database. -/
def store_action (s : State) (a : ActionRow String) : State :=
  { s with stored := s.stored ++ [a] }

/-- `decode2.py` `_interpret_position`: identical logic to `decode.py`. -/
noncomputable def interpret_position (s : State) (timestamp : Int) (player_id : Nat)
    (player_name : String) (pos_x pos_y pos_z : Int) : State :=
  let s' :=
    match lookupM s.player_positions player_id with
    | some last_pos =>
        let distance : ℝ :=
          Real.sqrt (((pos_x - last_pos.1 : Int) : ℝ) ^ 2 +
            ((pos_y - last_pos.2.1 : Int) : ℝ) ^ 2 +
            ((pos_z - last_pos.2.2.1 : Int) : ℝ) ^ 2)
        let velocity : ℝ :=
          if 0 < timestamp - last_pos.2.2.2 then
            distance / ((timestamp - last_pos.2.2.2 : Int) : ℝ)
          else 0
        store_action s
          ⟨timestamp, player_id, player_name, "move", none, some pos_x, some pos_y,
            some pos_z, none, none, none, some velocity, none⟩
    | none => s
  { s' with
    player_positions := insertM s'.player_positions player_id (pos_x, pos_y, pos_z, timestamp) }

/-- `decode2.py` `_interpret_angles`: identical logic to `decode.py`. -/
def interpret_angles (s : State) (timestamp : Int) (player_id : Nat)
    (player_name : String) (angle_x angle_y angle_z : Int) : State :=
  let hist := (lookupM s.aim_patterns player_id).getD [] ++ [(angle_x, angle_y, angle_z, timestamp)]
  let s' := { s with aim_patterns := insertM s.aim_patterns player_id hist }
  if 2 ≤ hist.length then
    let last_angle := (hist.get? (hist.length - 2)).getD (0, 0, 0, 0)
    let angle_change : Int :=
      |last_angle.1 - angle_x| + |last_angle.2.1 - angle_y| + |last_angle.2.2.1 - angle_z|
    if (angle_change : ℚ) < 1 / 100 then
      store_action s'
        ⟨timestamp, player_id, player_name, "aim_consistency", none, none, none, none,
          some angle_x, some angle_y, some angle_z, none, none⟩
    else s'
  else s'

/-- `_interpret_weapon_usage` of `decode2.py`.  Here `weapon` is the
weapon NAME string returned by `_extract_weapon`, so Python's
`weapon == 0` early-return comparison is always `False` (a `str` is never
equal to `0`) and the `weapon != 0` conjunct of the fire guard is always
`True`; both are therefore absent from the model. -/
def interpret_weapon_usage (s : State) (timestamp : Int) (player_id : Nat)
    (player_name : String) (eType : Int) (eFlags : Nat) : State :=
  let weapon := (extract_weapon eFlags).1
  if eType = 1 then
    match lookupM s.weapon_usage player_id with
    | some u =>
        let u' : Usage := ⟨u.shots + 1, u.hits⟩
        let s' := { s with weapon_usage := insertM s.weapon_usage player_id u' }
        store_action s'
          ⟨timestamp, player_id, player_name, "fire", some weapon, none, none, none,
            none, none, none, none, none⟩
    | none => s
  else if eType = 2 then
    match lookupM s.weapon_usage player_id with
    | some u =>
        let u' : Usage := ⟨u.shots, u.hits + 1⟩
        let s' := { s with weapon_usage := insertM s.weapon_usage player_id u' }
        let accuracy : ℚ := (u'.hits : ℚ) / (u'.shots : ℚ)
        store_action s'
          ⟨timestamp, player_id, player_name, "hit", some weapon, none, none, none,
            none, none, none, none, some accuracy⟩
    | none => s
  else if eType = 3 then
    store_action s
      ⟨timestamp, player_id, player_name, "reload", some weapon, none, none, none,
        none, none, none, none, none⟩
  else s

/-- `decode2.py` `_process_packet`: same driver as `decode.py`, but with
the bits 0–7 player-id extraction. -/
noncomputable def process_packet (s : State) (r : Record) : State :=
  let player_id := extract_player_id r.eFlags
  let player_name := "Player" ++ toString player_id
  let s1 := interpret_position s r.timestamp player_id player_name r.pos_x r.pos_y r.pos_z
  let s2 := interpret_angles s1 r.timestamp player_id player_name r.angle_x r.angle_y 0
  interpret_weapon_usage s2 r.timestamp player_id player_name r.eType r.eFlags

/-- The `parse_demo` loop of `decode2.py`. -/
noncomputable def process_all (s : State) : List Record → State
  | [] => s
  | r :: rs => process_all (process_packet s r) rs

end Decode2

/-- Predicate on rows: the row is not a `fire` and not a `hit` row. -/
def noFireHit {W : Type} (a : ActionRow W) : Bool :=
  a.action != "fire" && a.action != "hit"

/-- Predicate on aim-history entries: the third angle component is 0. -/
def entryZ (e : Int × Int × Int × Int) : Bool :=
  e.2.2.1 == 0

/-- Predicate on rows: an `aim_consistency` row carries `angle_z = 0`
(rows of any other kind satisfy it vacuously). -/
def rowZ {W : Type} (a : ActionRow W) : Bool :=
  (a.action != "aim_consistency") || (a.angle_z == some (0 : Int))

/-- A throwaway row used to instantiate the flush-threshold property on
a concrete sequence of 250 stored events. -/
def blankRow : ActionRow Nat :=
  ⟨0, 0, "", "", none, none, none, none, none, none, none, none, none⟩

/-- Length of a player's aim history in a `decode.py` session state. -/
def Decode.histLen (s : Decode.State) (pid : Nat) : Nat :=
  ((lookupM s.aim_patterns pid).getD []).length

/-- Length of a player's aim history in a `decode2.py` session state. -/
def Decode2.histLen (s : Decode2.State) (pid : Nat) : Nat :=
  ((lookupM s.aim_patterns pid).getD []).length

/-! ### Association-list lemmas -/

theorem lookupM_insert_self {α : Type _} (m : List (Nat × α)) (k : Nat) (v : α) :
    lookupM (insertM m k v) k = some v := by
  simp [insertM, lookupM]

theorem lookupM_filter_ne {α : Type _} (m : List (Nat × α)) (k k' : Nat) (h : k' ≠ k) :
    lookupM (m.filter (fun p => p.1 != k)) k' = lookupM m k' := by
  induction m with
  | nil => rfl
  | cons p rest ih =>
    obtain ⟨a, b⟩ := p
    by_cases hak : a = k
    · subst hak
      simpa [lookupM, h] using ih
    · by_cases hk'a : k' = a
      · subst hk'a
        simp [lookupM, hak]
      · simpa [lookupM, hak, hk'a] using ih

theorem lookupM_insert_ne {α : Type _} (m : List (Nat × α)) (k k' : Nat) (v : α)
    (h : k' ≠ k) : lookupM (insertM m k v) k' = lookupM m k' := by
  simp [insertM, lookupM, h, lookupM_filter_ne m k k' h]

theorem lookupM_mem {α : Type _} {m : List (Nat × α)} {k : Nat} {v : α}
    (h : lookupM m k = some v) : (k, v) ∈ m := by
  induction m with
  | nil => simp [lookupM] at h
  | cons p rest ih =>
    obtain ⟨a, b⟩ := p
    by_cases hk : k = a
    · subst hk
      simp [lookupM] at h
      simp [h]
    · simp [lookupM, hk] at h
      exact List.mem_cons_of_mem _ (ih h)

theorem insertM_all {α : Type _} (m : List (Nat × α)) (k : Nat) (v : α)
    (p : Nat × α → Bool) (hm : m.all p = true) (hv : p (k, v) = true) :
    (insertM m k v).all p = true := by
  rw [List.all_eq_true] at hm ⊢
  rintro x hx
  rcases List.mem_cons.mp hx with rfl | hx'
  · exact hv
  · exact hm x (List.mem_of_mem_filter hx')

theorem all_imp {α : Type _} {p q : α → Bool} (h : ∀ a, p a = true → q a = true)
    {l : List α} (hl : l.all p = true) : l.all q = true := by
  rw [List.all_eq_true] at hl ⊢
  exact fun a ha => h a (hl a ha)

/-! ### decode.py: basic state lemmas -/

namespace Decode

theorem store_action_weapon_usage (s : State) (a : ActionRow Nat) :
    (store_action s a).weapon_usage = s.weapon_usage := by
  simp only [store_action]
  split <;> rfl

theorem store_action_player_positions (s : State) (a : ActionRow Nat) :
    (store_action s a).player_positions = s.player_positions := by
  simp only [store_action]
  split <;> rfl

theorem store_action_aim_patterns (s : State) (a : ActionRow Nat) :
    (store_action s a).aim_patterns = s.aim_patterns := by
  simp only [store_action]
  split <;> rfl

theorem storedAll_store_action (s : State) (a : ActionRow Nat) :
    storedAll (store_action s a) = storedAll s ++ [a] := by
  simp only [store_action, storedAll]
  split <;> simp [List.append_assoc]

end Decode

namespace Decode

theorem storedAll_set_positions (s : State) (m : List (Nat × (Int × Int × Int × Int))) :
    storedAll { s with player_positions := m } = storedAll s := rfl

theorem storedAll_set_aim (s : State) (m : List (Nat × List (Int × Int × Int × Int))) :
    storedAll { s with aim_patterns := m } = storedAll s := rfl

theorem storedAll_set_usage (s : State) (m : List (Nat × Usage)) :
    storedAll { s with weapon_usage := m } = storedAll s := rfl

theorem interpret_position_weapon_usage (s : State) (ts : Int) (pid : Nat) (pn : String)
    (x y z : Int) : (interpret_position s ts pid pn x y z).weapon_usage = s.weapon_usage := by
  simp only [interpret_position]
  cases hl : lookupM s.player_positions pid with
  | none => simp [hl]
  | some lp => simp [hl, store_action_weapon_usage]

theorem interpret_position_aim_patterns (s : State) (ts : Int) (pid : Nat) (pn : String)
    (x y z : Int) : (interpret_position s ts pid pn x y z).aim_patterns = s.aim_patterns := by
  simp only [interpret_position]
  cases hl : lookupM s.player_positions pid with
  | none => simp [hl]
  | some lp => simp [hl, store_action_aim_patterns]

theorem interpret_position_player_positions (s : State) (ts : Int) (pid : Nat) (pn : String)
    (x y z : Int) : (interpret_position s ts pid pn x y z).player_positions
      = insertM s.player_positions pid (x, y, z, ts) := by
  simp only [interpret_position]
  cases hl : lookupM s.player_positions pid with
  | none => simp [hl]
  | some lp => simp [hl, store_action_player_positions]

theorem interpret_position_storedAll_none (s : State) (ts : Int) (pid : Nat) (pn : String)
    (x y z : Int) (h : lookupM s.player_positions pid = none) :
    storedAll (interpret_position s ts pid pn x y z) = storedAll s := by
  simp only [interpret_position]
  simp [h, storedAll_set_positions]

theorem interpret_position_storedAll_some (s : State) (ts : Int) (pid : Nat) (pn : String)
    (x y z : Int) (lp : Int × Int × Int × Int)
    (h : lookupM s.player_positions pid = some lp) :
    storedAll (interpret_position s ts pid pn x y z)
      = storedAll s ++ [⟨ts, pid, pn, "move", none, some x, some y, some z, none, none, none,
          some (if 0 < ts - lp.2.2.2 then
              Real.sqrt (((x - lp.1 : Int) : ℝ) ^ 2 + ((y - lp.2.1 : Int) : ℝ) ^ 2 +
                ((z - lp.2.2.1 : Int) : ℝ) ^ 2) / ((ts - lp.2.2.2 : Int) : ℝ)
            else 0), none⟩] := by
  simp only [interpret_position]
  simp [h, storedAll_set_positions, storedAll_store_action]

theorem interpret_position_storedAll (s : State) (ts : Int) (pid : Nat) (pn : String)
    (x y z : Int) :
    storedAll (interpret_position s ts pid pn x y z) = storedAll s ∨
    ∃ v : ℝ, storedAll (interpret_position s ts pid pn x y z)
      = storedAll s ++ [⟨ts, pid, pn, "move", none, some x, some y, some z,
          none, none, none, some v, none⟩] := by
  cases hl : lookupM s.player_positions pid with
  | none => exact Or.inl (interpret_position_storedAll_none s ts pid pn x y z hl)
  | some lp => exact Or.inr ⟨_, interpret_position_storedAll_some s ts pid pn x y z lp hl⟩

theorem interpret_angles_weapon_usage (s : State) (ts : Int) (pid : Nat) (pn : String)
    (ax ay az : Int) : (interpret_angles s ts pid pn ax ay az).weapon_usage = s.weapon_usage := by
  simp only [interpret_angles]
  split
  · split
    · simp [store_action_weapon_usage]
    · rfl
  · rfl

theorem interpret_angles_player_positions (s : State) (ts : Int) (pid : Nat) (pn : String)
    (ax ay az : Int) :
    (interpret_angles s ts pid pn ax ay az).player_positions = s.player_positions := by
  simp only [interpret_angles]
  split
  · split
    · simp [store_action_player_positions]
    · rfl
  · rfl

theorem interpret_angles_aim_patterns (s : State) (ts : Int) (pid : Nat) (pn : String)
    (ax ay az : Int) :
    (interpret_angles s ts pid pn ax ay az).aim_patterns
      = insertM s.aim_patterns pid
          ((lookupM s.aim_patterns pid).getD [] ++ [(ax, ay, az, ts)]) := by
  simp only [interpret_angles]
  split
  · split
    · simp [store_action_aim_patterns]
    · rfl
  · rfl

theorem interpret_angles_storedAll (s : State) (ts : Int) (pid : Nat) (pn : String)
    (ax ay az : Int) :
    storedAll (interpret_angles s ts pid pn ax ay az) = storedAll s ∨
    storedAll (interpret_angles s ts pid pn ax ay az)
      = storedAll s ++ [⟨ts, pid, pn, "aim_consistency", none, none, none, none,
          some ax, some ay, some az, none, none⟩] := by
  simp only [interpret_angles]
  split
  · split
    · right
      rw [storedAll_store_action]
      simp [storedAll_set_aim]
    · left; simp [storedAll_set_aim]
  · left; simp [storedAll_set_aim]

end Decode

namespace Decode

theorem interpret_weapon_usage_aim_patterns (s : State) (ts : Int) (pid : Nat) (pn : String)
    (eT : Int) (flags : Nat) :
    (interpret_weapon_usage s ts pid pn eT flags).aim_patterns = s.aim_patterns := by
  simp only [interpret_weapon_usage]
  split
  · rfl
  split
  · split
    · cases hl : lookupM s.weapon_usage pid with
      | none => rfl
      | some u => simp [hl, store_action_aim_patterns]
    · rfl
  split
  · cases hl : lookupM s.weapon_usage pid with
    | none => rfl
    | some u => simp [hl, store_action_aim_patterns]
  split
  · simp [store_action_aim_patterns]
  · rfl

theorem interpret_weapon_usage_player_positions (s : State) (ts : Int) (pid : Nat)
    (pn : String) (eT : Int) (flags : Nat) :
    (interpret_weapon_usage s ts pid pn eT flags).player_positions = s.player_positions := by
  simp only [interpret_weapon_usage]
  split
  · rfl
  split
  · split
    · cases hl : lookupM s.weapon_usage pid with
      | none => rfl
      | some u => simp [hl, store_action_player_positions]
    · rfl
  split
  · cases hl : lookupM s.weapon_usage pid with
    | none => rfl
    | some u => simp [hl, store_action_player_positions]
  split
  · simp [store_action_player_positions]
  · rfl

theorem interpret_weapon_usage_storedAll (s : State) (ts : Int) (pid : Nat) (pn : String)
    (eT : Int) (flags : Nat) :
    storedAll (interpret_weapon_usage s ts pid pn eT flags) = storedAll s ∨
    ∃ a : ActionRow Nat, (a.action = "fire" ∨ a.action = "hit" ∨ a.action = "reload") ∧
      storedAll (interpret_weapon_usage s ts pid pn eT flags) = storedAll s ++ [a] := by
  simp only [interpret_weapon_usage]
  split
  · exact Or.inl rfl
  split
  · split
    · cases hl : lookupM s.weapon_usage pid with
      | none => exact Or.inl rfl
      | some u =>
          right
          refine ⟨⟨ts, pid, pn, "fire", some (extract_weapon flags).1, none, none, none,
            none, none, none, none, none⟩, Or.inl rfl, ?_⟩
          simp [hl, storedAll_store_action, storedAll_set_usage]
    · exact Or.inl rfl
  split
  · cases hl : lookupM s.weapon_usage pid with
    | none => exact Or.inl rfl
    | some u =>
        right
        refine ⟨⟨ts, pid, pn, "hit", some (extract_weapon flags).1, none, none, none,
          none, none, none, none, some ((u.hits + 1 : ℕ) / (u.shots : ℚ))⟩,
          Or.inr (Or.inl rfl), ?_⟩
        simp [hl, storedAll_store_action, storedAll_set_usage]
  split
  · right
    refine ⟨⟨ts, pid, pn, "reload", some (extract_weapon flags).1, none, none, none,
      none, none, none, none, none⟩, Or.inr (Or.inr rfl), ?_⟩
    simp [storedAll_store_action]
  · exact Or.inl rfl

/-- With an empty `weapon_usage` dict the fire and hit branches do
nothing, `weapon_usage` stays empty, and at most a `reload` row (with a
nonzero weapon id) is emitted. -/
theorem interpret_weapon_usage_of_empty (s : State) (ts : Int) (pid : Nat) (pn : String)
    (eT : Int) (flags : Nat) (h : s.weapon_usage = []) :
    (interpret_weapon_usage s ts pid pn eT flags).weapon_usage = [] ∧
    (storedAll (interpret_weapon_usage s ts pid pn eT flags) = storedAll s ∨
      storedAll (interpret_weapon_usage s ts pid pn eT flags)
        = storedAll s ++ [⟨ts, pid, pn, "reload", some (extract_weapon flags).1,
            none, none, none, none, none, none, none, none⟩]) := by
  have hl : lookupM s.weapon_usage pid = none := by rw [h]; rfl
  simp only [interpret_weapon_usage]
  split
  · exact ⟨h, Or.inl rfl⟩
  split
  · split
    · simp only [hl]
      exact ⟨h, Or.inl trivial⟩
    · exact ⟨h, Or.inl rfl⟩
  split
  · simp only [hl]
    exact ⟨h, Or.inl trivial⟩
  split
  · exact ⟨by simp [store_action_weapon_usage, h], Or.inr (by simp [storedAll_store_action])⟩
  · exact ⟨h, Or.inl rfl⟩

end Decode

namespace Decode2

theorem store_action_weapon_usage2 (s : State) (a : ActionRow String) :
    (store_action s a).weapon_usage = s.weapon_usage := rfl

theorem store_action_player_positions2 (s : State) (a : ActionRow String) :
    (store_action s a).player_positions = s.player_positions := rfl

theorem store_action_aim_patterns2 (s : State) (a : ActionRow String) :
    (store_action s a).aim_patterns = s.aim_patterns := rfl

theorem store_action_stored (s : State) (a : ActionRow String) :
    (store_action s a).stored = s.stored ++ [a] := rfl

theorem stored_set_positions (s : State) (m : List (Nat × (Int × Int × Int × Int))) :
    ({ s with player_positions := m } : State).stored = s.stored := rfl

theorem stored_set_aim (s : State) (m : List (Nat × List (Int × Int × Int × Int))) :
    ({ s with aim_patterns := m } : State).stored = s.stored := rfl

theorem stored_set_usage (s : State) (m : List (Nat × Usage)) :
    ({ s with weapon_usage := m } : State).stored = s.stored := rfl

theorem interpret_position_weapon_usage2 (s : State) (ts : Int) (pid : Nat) (pn : String)
    (x y z : Int) : (interpret_position s ts pid pn x y z).weapon_usage = s.weapon_usage := by
  simp only [interpret_position]
  cases hl : lookupM s.player_positions pid with
  | none => simp [hl]
  | some lp => simp [hl, store_action_weapon_usage2]

theorem interpret_position_aim_patterns2 (s : State) (ts : Int) (pid : Nat) (pn : String)
    (x y z : Int) : (interpret_position s ts pid pn x y z).aim_patterns = s.aim_patterns := by
  simp only [interpret_position]
  cases hl : lookupM s.player_positions pid with
  | none => simp [hl]
  | some lp => simp [hl, store_action_aim_patterns2]

theorem interpret_position_player_positions2 (s : State) (ts : Int) (pid : Nat) (pn : String)
    (x y z : Int) : (interpret_position s ts pid pn x y z).player_positions
      = insertM s.player_positions pid (x, y, z, ts) := by
  simp only [interpret_position]
  cases hl : lookupM s.player_positions pid with
  | none => simp [hl]
  | some lp => simp [hl, store_action_player_positions2]

theorem interpret_position_stored_none (s : State) (ts : Int) (pid : Nat) (pn : String)
    (x y z : Int) (h : lookupM s.player_positions pid = none) :
    (interpret_position s ts pid pn x y z).stored = s.stored := by
  simp only [interpret_position]
  simp [h, stored_set_positions]

theorem interpret_position_stored_some (s : State) (ts : Int) (pid : Nat) (pn : String)
    (x y z : Int) (lp : Int × Int × Int × Int)
    (h : lookupM s.player_positions pid = some lp) :
    (interpret_position s ts pid pn x y z).stored
      = s.stored ++ [⟨ts, pid, pn, "move", none, some x, some y, some z, none, none, none,
          some (if 0 < ts - lp.2.2.2 then
              Real.sqrt (((x - lp.1 : Int) : ℝ) ^ 2 + ((y - lp.2.1 : Int) : ℝ) ^ 2 +
                ((z - lp.2.2.1 : Int) : ℝ) ^ 2) / ((ts - lp.2.2.2 : Int) : ℝ)
            else 0), none⟩] := by
  simp only [interpret_position]
  simp [h, stored_set_positions, store_action_stored]

theorem interpret_position_stored (s : State) (ts : Int) (pid : Nat) (pn : String)
    (x y z : Int) :
    (interpret_position s ts pid pn x y z).stored = s.stored ∨
    ∃ v : ℝ, (interpret_position s ts pid pn x y z).stored
      = s.stored ++ [⟨ts, pid, pn, "move", none, some x, some y, some z,
          none, none, none, some v, none⟩] := by
  cases hl : lookupM s.player_positions pid with
  | none => exact Or.inl (interpret_position_stored_none s ts pid pn x y z hl)
  | some lp => exact Or.inr ⟨_, interpret_position_stored_some s ts pid pn x y z lp hl⟩

theorem interpret_angles_weapon_usage2 (s : State) (ts : Int) (pid : Nat) (pn : String)
    (ax ay az : Int) : (interpret_angles s ts pid pn ax ay az).weapon_usage = s.weapon_usage := by
  simp only [interpret_angles]
  split
  · split
    · simp [store_action_weapon_usage2]
    · rfl
  · rfl

theorem interpret_angles_player_positions2 (s : State) (ts : Int) (pid : Nat) (pn : String)
    (ax ay az : Int) :
    (interpret_angles s ts pid pn ax ay az).player_positions = s.player_positions := by
  simp only [interpret_angles]
  split
  · split
    · simp [store_action_player_positions2]
    · rfl
  · rfl

theorem interpret_angles_aim_patterns2 (s : State) (ts : Int) (pid : Nat) (pn : String)
    (ax ay az : Int) :
    (interpret_angles s ts pid pn ax ay az).aim_patterns
      = insertM s.aim_patterns pid
          ((lookupM s.aim_patterns pid).getD [] ++ [(ax, ay, az, ts)]) := by
  simp only [interpret_angles]
  split
  · split
    · simp [store_action_aim_patterns2]
    · rfl
  · rfl

theorem interpret_angles_stored (s : State) (ts : Int) (pid : Nat) (pn : String)
    (ax ay az : Int) :
    (interpret_angles s ts pid pn ax ay az).stored = s.stored ∨
    (interpret_angles s ts pid pn ax ay az).stored
      = s.stored ++ [⟨ts, pid, pn, "aim_consistency", none, none, none, none,
          some ax, some ay, some az, none, none⟩] := by
  simp only [interpret_angles]
  split
  · split
    · right
      rw [store_action_stored]
    · left; simp [stored_set_aim]
  · left; simp [stored_set_aim]

theorem interpret_weapon_usage_aim_patterns2 (s : State) (ts : Int) (pid : Nat) (pn : String)
    (eT : Int) (flags : Nat) :
    (interpret_weapon_usage s ts pid pn eT flags).aim_patterns = s.aim_patterns := by
  simp only [interpret_weapon_usage]
  split
  · cases hl : lookupM s.weapon_usage pid with
    | none => rfl
    | some u => simp [hl, store_action_aim_patterns2]
  split
  · cases hl : lookupM s.weapon_usage pid with
    | none => rfl
    | some u => simp [hl, store_action_aim_patterns2]
  split
  · simp [store_action_aim_patterns2]
  · rfl

theorem interpret_weapon_usage_player_positions2 (s : State) (ts : Int) (pid : Nat)
    (pn : String) (eT : Int) (flags : Nat) :
    (interpret_weapon_usage s ts pid pn eT flags).player_positions = s.player_positions := by
  simp only [interpret_weapon_usage]
  split
  · cases hl : lookupM s.weapon_usage pid with
    | none => rfl
    | some u => simp [hl, store_action_player_positions2]
  split
  · cases hl : lookupM s.weapon_usage pid with
    | none => rfl
    | some u => simp [hl, store_action_player_positions2]
  split
  · simp [store_action_player_positions2]
  · rfl

theorem interpret_weapon_usage_stored (s : State) (ts : Int) (pid : Nat) (pn : String)
    (eT : Int) (flags : Nat) :
    (interpret_weapon_usage s ts pid pn eT flags).stored = s.stored ∨
    ∃ a : ActionRow String, (a.action = "fire" ∨ a.action = "hit" ∨ a.action = "reload") ∧
      (interpret_weapon_usage s ts pid pn eT flags).stored = s.stored ++ [a] := by
  simp only [interpret_weapon_usage]
  split
  · cases hl : lookupM s.weapon_usage pid with
    | none => exact Or.inl rfl
    | some u =>
        right
        refine ⟨⟨ts, pid, pn, "fire", some (extract_weapon flags).1, none, none, none,
          none, none, none, none, none⟩, Or.inl rfl, ?_⟩
        simp [hl, store_action_stored, stored_set_usage]
  split
  · cases hl : lookupM s.weapon_usage pid with
    | none => exact Or.inl rfl
    | some u =>
        right
        refine ⟨⟨ts, pid, pn, "hit", some (extract_weapon flags).1, none, none, none,
          none, none, none, none, some ((u.hits + 1 : ℕ) / (u.shots : ℚ))⟩,
          Or.inr (Or.inl rfl), ?_⟩
        simp [hl, store_action_stored, stored_set_usage]
  split
  · right
    refine ⟨⟨ts, pid, pn, "reload", some (extract_weapon flags).1, none, none, none,
      none, none, none, none, none⟩, Or.inr (Or.inr rfl), ?_⟩
    simp [store_action_stored]
  · exact Or.inl rfl

/-- With an empty `weapon_usage` dict, the `decode2.py` fire and hit
branches do nothing, `weapon_usage` stays empty, and at most a `reload`
row (tagged with the extracted weapon name) is emitted. -/
theorem interpret_weapon_usage_of_empty2 (s : State) (ts : Int) (pid : Nat) (pn : String)
    (eT : Int) (flags : Nat) (h : s.weapon_usage = []) :
    (interpret_weapon_usage s ts pid pn eT flags).weapon_usage = [] ∧
    ((interpret_weapon_usage s ts pid pn eT flags).stored = s.stored ∨
      (interpret_weapon_usage s ts pid pn eT flags).stored
        = s.stored ++ [⟨ts, pid, pn, "reload", some (extract_weapon flags).1,
            none, none, none, none, none, none, none, none⟩]) := by
  have hl : lookupM s.weapon_usage pid = none := by rw [h]; rfl
  simp only [interpret_weapon_usage]
  split
  · simp only [hl]
    exact ⟨h, Or.inl trivial⟩
  split
  · simp only [hl]
    exact ⟨h, Or.inl trivial⟩
  split
  · exact ⟨by simp [store_action_weapon_usage2, h], Or.inr (by simp [store_action_stored])⟩
  · exact ⟨h, Or.inl rfl⟩

end Decode2

/-! ### Extraction helpers -/

theorem lookupM_eq_none_of_forall {α : Type _} {m : List (Nat × α)} {k : Nat}
    (h : ∀ p ∈ m, p.1 ≠ k) : lookupM m k = none := by
  induction m with
  | nil => rfl
  | cons p rest ih =>
    obtain ⟨a, b⟩ := p
    have hak : k ≠ a := fun hk => h (a, b) (List.mem_cons_self _ _) hk.symm
    simp only [lookupM, if_neg hak]
    exact ih fun q hq => h q (List.mem_cons_of_mem _ hq)

theorem WEAPON_TABLE_keys_le : ∀ p ∈ WEAPON_TABLE, p.1 ≤ 63 := by decide

theorem Decode.extract_weapon_eq_of_invalid (flags : Nat)
    (h : 64 ≤ (flags >>> 8) &&& 255) : Decode.extract_weapon flags = (0, true) := by
  simp only [Decode.extract_weapon, Decode.MAX_WEAPONS]
  rw [if_neg (by omega)]

theorem Decode2.extract_weapon_eq_of_invalid2 (flags : Nat)
    (h : 64 ≤ (flags >>> 8) &&& 255) : Decode2.extract_weapon flags = ("Unknown", false) := by
  simp only [Decode2.extract_weapon]
  rw [lookupM_eq_none_of_forall (fun p hp => by have := WEAPON_TABLE_keys_le p hp; omega)]
  rfl

/-! ### Claim C1 -/

/-- C1, counterexample.  The claim says an invalid `WeaponId` never
suppresses the `Fire`/`Hit`/`Reload` event.  In `decode.py`, a record
with `eType = 3` (Reload) whose `entityFlags` encode weapon id 70
(`eFlags = 70 * 256 = 17920`, out of `[0, 63]`) is processed without
emitting ANY row: the invalid weapon id is mapped to the sentinel `0`
and `_interpret_weapon_usage` returns before reaching the reload branch,
so the session records nothing at all. -/
theorem reload_dropped_on_invalid_weapon :
    Decode.storedAll (Decode.process_packet Decode.initState ⟨0, 3, 17920, 0, 0, 0, 0, 0⟩)
      = [] := by
  rfl

/-- C1, amended.  In `decode.py` an extracted weapon id out of `[0, 63]`
maps to the sentinel `0` and then suppresses every weapon-usage event
(fire, hit and reload alike, for any `eType`); in `decode2.py` the same
invalid id maps to the weapon name `"Unknown"` and does not suppress the
reload event, which is emitted tagged `"Unknown"` (fire and hit are
suppressed in both variants for the unrelated reason that `weapon_usage`
is never populated). -/
theorem invalid_weapon_handling_split (s : Decode.State) (s2 : Decode2.State)
    (ts : Int) (pid : Nat) (pn : String) (eT : Int) (flags : Nat)
    (h : 64 ≤ (flags >>> 8) &&& 255) :
    Decode.interpret_weapon_usage s ts pid pn eT flags = s ∧
    (Decode2.interpret_weapon_usage s2 ts pid pn 3 flags).stored
      = s2.stored ++ [⟨ts, pid, pn, "reload", some "Unknown", none, none, none,
          none, none, none, none, none⟩] := by
  constructor
  · simp [Decode.interpret_weapon_usage, Decode.extract_weapon_eq_of_invalid flags h]
  · simp [Decode2.interpret_weapon_usage, Decode2.extract_weapon_eq_of_invalid2 flags h,
      Decode2.store_action_stored]

/-- C1, witness for `invalid_weapon_handling_split` at `eFlags = 17920`
(weapon id 70). -/
theorem invalid_weapon_handling_split_witness :
    Decode.interpret_weapon_usage Decode.initState 0 9 "Player9" 3 17920 = Decode.initState ∧
    (Decode2.interpret_weapon_usage Decode2.initState 0 9 "Player9" 3 17920).stored
      = [⟨0, 9, "Player9", "reload", some "Unknown", none, none, none,
          none, none, none, none, none⟩] := by
  have h := invalid_weapon_handling_split Decode.initState Decode2.initState
    0 9 "Player9" 3 17920 (by decide)
  exact ⟨h.1, h.2⟩

/-! ### Claim C2 -/

/-- C2 (`code_bug` evaluation).  A record with `eType = 2` (Hit) and a
valid weapon id (`eFlags = 0x500`, weapon 5) processed for a fresh player
leaves `weapon_usage` untouched and stores NO row in either variant: the
hit branch is guarded by membership in the never-populated `weapon_usage`
dict, so the hits counter is not incremented and no `Hit` event is
emitted — and the dead branch would compute `hits / shots` with no
`shots > 0` guard.  The claim's described behaviour (increment `hits`,
emit `Hit` without accuracy when `shots == 0`) never happens. -/
theorem hit_record_produces_no_event :
    (Decode.process_packet Decode.initState ⟨0, 2, 1280, 0, 0, 0, 0, 0⟩).weapon_usage = [] ∧
    Decode.storedAll (Decode.process_packet Decode.initState ⟨0, 2, 1280, 0, 0, 0, 0, 0⟩)
      = [] ∧
    (Decode2.process_packet Decode2.initState ⟨0, 2, 1280, 0, 0, 0, 0, 0⟩).weapon_usage = [] ∧
    (Decode2.process_packet Decode2.initState ⟨0, 2, 1280, 0, 0, 0, 0, 0⟩).stored = [] := by
  exact ⟨rfl, rfl, rfl, rfl⟩

/-! ### Claim C5 -/

/-- C5, counterexample.  The two variants do NOT extract the same player
id from every `entityFlags` value: at `entityFlags = 1`, `decode.py`
(bits 16–23) yields player 0 while `decode2.py` (bits 0–7) yields
player 1. -/
theorem player_id_layouts_differ :
    ¬ ∀ flags : Nat, Decode.extract_player_id flags = Decode2.extract_player_id flags :=
  fun h => absurd (h 1) (by decide)

/-- C5, amended.  The two variants use two different documented byte
layouts: `decode.py` extracts bits 16–23 and `decode2.py` extracts bits
0–7 of `entityFlags`; both results are valid `PlayerId`s in `[0, 255]`,
and the two extractions agree exactly on those flag values whose
bits 16–23 coincide with bits 0–7. -/
theorem player_id_layouts_characterized (flags : Nat) :
    Decode.extract_player_id flags = (flags >>> 16) &&& 255 ∧
    Decode2.extract_player_id flags = flags &&& 255 ∧
    Decode.extract_player_id flags < 256 ∧
    Decode2.extract_player_id flags < 256 ∧
    (Decode.extract_player_id flags = Decode2.extract_player_id flags ↔
      (flags >>> 16) &&& 255 = flags &&& 255) := by
  refine ⟨rfl, rfl, ?_, ?_, Iff.rfl⟩
  · exact Nat.lt_succ_of_le (Nat.and_le_right)
  · exact Nat.lt_succ_of_le (Nat.and_le_right)

/-! ### Claim C6 -/

/-- C6, counterexample.  The claim says an out-of-range extracted weapon
id returns the `Unknown` sentinel AFTER signalling a non-fatal warning.
`decode2.py`'s `_extract_weapon` performs no logging at all: at
`entityFlags = 17920` (weapon id 70, out of `[0, 63]`) it returns the
sentinel name `"Unknown"` with no warning signalled. -/
theorem weapon_warning_missing_in_decode2 :
    64 ≤ (17920 >>> 8) &&& 255 ∧
    (Decode2.extract_weapon 17920).1 = "Unknown" ∧
    (Decode2.extract_weapon 17920).2 = false :=
  ⟨by decide, rfl, rfl⟩

/-- C6, amended.  Both variants extract the weapon id from bits 8–15 of
`entityFlags` and map every value outside `[0, 63]` to the defined
sentinel without throwing and without defaulting to a valid-looking
weapon: `decode.py` returns the sentinel id `0` and signals the
non-fatal `Invalid weapon ID` warning, while `decode2.py` returns the
sentinel name `"Unknown"` silently, with no warning. -/
theorem weapon_out_of_range_spec (flags : Nat) (h : 64 ≤ (flags >>> 8) &&& 255) :
    Decode.extract_weapon flags = (0, true) ∧
    Decode2.extract_weapon flags = ("Unknown", false) :=
  ⟨Decode.extract_weapon_eq_of_invalid flags h,
   Decode2.extract_weapon_eq_of_invalid2 flags h⟩

/-- C6, witness for `weapon_out_of_range_spec` at `entityFlags = 17920`
(weapon id 70). -/
theorem weapon_out_of_range_spec_witness :
    Decode.extract_weapon 17920 = (0, true) ∧
    Decode2.extract_weapon 17920 = ("Unknown", false) :=
  weapon_out_of_range_spec 17920 (by decide)

/-! ### Claim C4 -/

/-- C4.  In both variants, `_interpret_position` always overwrites the
stored last position/timestamp with the new one; when no prior position
is stored it emits nothing; and when a prior `(lx, ly, lz, lt)` is stored
it emits exactly one `move` row whose velocity is the Euclidean distance
between the old and new positions divided by the timestamp delta if that
delta is strictly positive, and `0` if the delta is zero or negative. -/
theorem move_velocity_spec (s : Decode.State) (s2 : Decode2.State) (ts : Int)
    (pid : Nat) (pn : String) (px py pz : Int) :
    lookupM (Decode.interpret_position s ts pid pn px py pz).player_positions pid
      = some (px, py, pz, ts) ∧
    (lookupM s.player_positions pid = none →
      Decode.storedAll (Decode.interpret_position s ts pid pn px py pz)
        = Decode.storedAll s) ∧
    (∀ lx ly lz lt : Int, lookupM s.player_positions pid = some (lx, ly, lz, lt) →
      Decode.storedAll (Decode.interpret_position s ts pid pn px py pz)
        = Decode.storedAll s ++ [⟨ts, pid, pn, "move", none, some px, some py, some pz,
            none, none, none,
            some (if 0 < ts - lt then
                Real.sqrt (((px - lx : Int) : ℝ) ^ 2 + ((py - ly : Int) : ℝ) ^ 2 +
                  ((pz - lz : Int) : ℝ) ^ 2) / ((ts - lt : Int) : ℝ)
              else 0), none⟩]) ∧
    lookupM (Decode2.interpret_position s2 ts pid pn px py pz).player_positions pid
      = some (px, py, pz, ts) ∧
    (lookupM s2.player_positions pid = none →
      (Decode2.interpret_position s2 ts pid pn px py pz).stored = s2.stored) ∧
    (∀ lx ly lz lt : Int, lookupM s2.player_positions pid = some (lx, ly, lz, lt) →
      (Decode2.interpret_position s2 ts pid pn px py pz).stored
        = s2.stored ++ [⟨ts, pid, pn, "move", none, some px, some py, some pz,
            none, none, none,
            some (if 0 < ts - lt then
                Real.sqrt (((px - lx : Int) : ℝ) ^ 2 + ((py - ly : Int) : ℝ) ^ 2 +
                  ((pz - lz : Int) : ℝ) ^ 2) / ((ts - lt : Int) : ℝ)
              else 0), none⟩]) := by
  refine ⟨?_, ?_, ?_, ?_, ?_, ?_⟩
  · rw [Decode.interpret_position_player_positions, lookupM_insert_self]
  · exact Decode.interpret_position_storedAll_none s ts pid pn px py pz
  · intro lx ly lz lt hl
    simpa using Decode.interpret_position_storedAll_some s ts pid pn px py pz (lx, ly, lz, lt) hl
  · rw [Decode2.interpret_position_player_positions2, lookupM_insert_self]
  · exact Decode2.interpret_position_stored_none s2 ts pid pn px py pz
  · intro lx ly lz lt hl
    simpa using Decode2.interpret_position_stored_some s2 ts pid pn px py pz (lx, ly, lz, lt) hl

/-- C4, witness: the spec's velocity example.  Player 5 at `(0,0,0)` at
`t = 1000` and `(3,4,0)` at `t = 1050` yields one `move` row with
velocity `5 / 50 = 0.1`, and the stored last position is updated. -/
theorem move_velocity_spec_witness :
    Decode.storedAll (Decode.interpret_position
        (Decode.interpret_position Decode.initState 1000 5 "Player5" 0 0 0)
        1050 5 "Player5" 3 4 0)
      = [⟨1050, 5, "Player5", "move", none, some 3, some 4, some 0,
          none, none, none, some ((1 : ℝ) / 10), none⟩] ∧
    lookupM (Decode.interpret_position
        (Decode.interpret_position Decode.initState 1000 5 "Player5" 0 0 0)
        1050 5 "Player5" 3 4 0).player_positions 5 = some (3, 4, 0, 1050) := by
  obtain ⟨hpos1, hnone1, -, -, -, -⟩ :=
    move_velocity_spec Decode.initState Decode2.initState 1000 5 "Player5" 0 0 0
  obtain ⟨hpos2, -, hsome2, -, -, -⟩ :=
    move_velocity_spec (Decode.interpret_position Decode.initState 1000 5 "Player5" 0 0 0)
      Decode2.initState 1050 5 "Player5" 3 4 0
  have hstored1 : Decode.storedAll
      (Decode.interpret_position Decode.initState 1000 5 "Player5" 0 0 0) = [] := by
    rw [hnone1 rfl]; rfl
  refine ⟨?_, hpos2⟩
  rw [hsome2 0 0 0 1000 hpos1, hstored1]
  simp only [List.nil_append, List.cons.injEq, and_true, ActionRow.mk.injEq,
    Option.some.injEq, true_and]
  rw [if_pos (by norm_num)]
  have h25 : (((3 : ℤ) - 0 : ℤ) : ℝ) ^ 2 + (((4 : ℤ) - 0 : ℤ) : ℝ) ^ 2 +
      (((0 : ℤ) - 0 : ℤ) : ℝ) ^ 2 = 25 := by norm_num
  rw [h25, show (25 : ℝ) = 5 ^ 2 by norm_num,
    Real.sqrt_sq (by norm_num : (0 : ℝ) ≤ 5)]
  norm_num

/-! ### Claim C7 -/

/-- C7.  In both variants, `_interpret_angles` always pushes the angle
triple and timestamp onto the player's aim history; with fewer than two
entries nothing is emitted; and with at least two entries (prior history
`old ++ [la]`) an `aim_consistency` row is emitted if and only if the
sum of the absolute per-axis differences between the two most recent
entries is strictly below the `0.01` threshold. -/
theorem aim_consistency_spec (s : Decode.State) (s2 : Decode2.State) (ts : Int)
    (pid : Nat) (pn : String) (ax ay az : Int) :
    lookupM (Decode.interpret_angles s ts pid pn ax ay az).aim_patterns pid
      = some ((lookupM s.aim_patterns pid).getD [] ++ [(ax, ay, az, ts)]) ∧
    ((lookupM s.aim_patterns pid).getD [] = [] →
      Decode.storedAll (Decode.interpret_angles s ts pid pn ax ay az)
        = Decode.storedAll s) ∧
    (∀ (old : List (Int × Int × Int × Int)) (la : Int × Int × Int × Int),
      (lookupM s.aim_patterns pid).getD [] = old ++ [la] →
      Decode.storedAll (Decode.interpret_angles s ts pid pn ax ay az)
        = if ((|la.1 - ax| + |la.2.1 - ay| + |la.2.2.1 - az| : Int) : ℚ) < 1 / 100
          then Decode.storedAll s ++ [⟨ts, pid, pn, "aim_consistency", none, none, none,
              none, some ax, some ay, some az, none, none⟩]
          else Decode.storedAll s) ∧
    lookupM (Decode2.interpret_angles s2 ts pid pn ax ay az).aim_patterns pid
      = some ((lookupM s2.aim_patterns pid).getD [] ++ [(ax, ay, az, ts)]) ∧
    ((lookupM s2.aim_patterns pid).getD [] = [] →
      (Decode2.interpret_angles s2 ts pid pn ax ay az).stored = s2.stored) ∧
    (∀ (old : List (Int × Int × Int × Int)) (la : Int × Int × Int × Int),
      (lookupM s2.aim_patterns pid).getD [] = old ++ [la] →
      (Decode2.interpret_angles s2 ts pid pn ax ay az).stored
        = if ((|la.1 - ax| + |la.2.1 - ay| + |la.2.2.1 - az| : Int) : ℚ) < 1 / 100
          then s2.stored ++ [⟨ts, pid, pn, "aim_consistency", none, none, none,
              none, some ax, some ay, some az, none, none⟩]
          else s2.stored) := by
  have hidx : ∀ (old : List (Int × Int × Int × Int)) (la : Int × Int × Int × Int),
      ((old ++ [la]) ++ [(ax, ay, az, ts)]).get?
          (((old ++ [la]) ++ [(ax, ay, az, ts)]).length - 2) = some la := by
    intro old la
    have hlen : ((old ++ [la]) ++ [(ax, ay, az, ts)]).length - 2 = old.length := by
      simp
    rw [hlen, List.get?_append (by simp), List.get?_concat_length]
  refine ⟨?_, ?_, ?_, ?_, ?_, ?_⟩
  · rw [Decode.interpret_angles_aim_patterns, lookupM_insert_self]
  · intro h
    simp [Decode.interpret_angles, h, Decode.storedAll_set_aim]
  · intro old la h
    simp only [Decode.interpret_angles, h]
    rw [if_pos (by simp), hidx old la]
    simp only [Option.getD_some]
    by_cases hc : ((|la.1 - ax| + |la.2.1 - ay| + |la.2.2.1 - az| : Int) : ℚ) < 1 / 100
    · rw [if_pos hc, if_pos hc, Decode.storedAll_store_action, Decode.storedAll_set_aim]
    · rw [if_neg hc, if_neg hc, Decode.storedAll_set_aim]
  · rw [Decode2.interpret_angles_aim_patterns2, lookupM_insert_self]
  · intro h
    simp [Decode2.interpret_angles, h, Decode2.stored_set_aim]
  · intro old la h
    simp only [Decode2.interpret_angles, h]
    rw [if_pos (by simp), hidx old la]
    simp only [Option.getD_some]
    by_cases hc : ((|la.1 - ax| + |la.2.1 - ay| + |la.2.2.1 - az| : Int) : ℚ) < 1 / 100
    · rw [if_pos hc, if_pos hc, Decode2.store_action_stored, Decode2.stored_set_aim]
    · rw [if_neg hc, if_neg hc, Decode2.stored_set_aim]

/-- C7, witness: after a first sample `(1,1,1)` at `t = 0` for player 7,
a second sample `(1,1,1)` at `t = 1` (sum of absolute differences
`0 < 0.01`) emits exactly one `aim_consistency` row, while a second
sample `(2,1,1)` (sum `1 ≥ 0.01`) emits nothing. -/
theorem aim_consistency_spec_witness :
    Decode.storedAll (Decode.interpret_angles
        (Decode.interpret_angles Decode.initState 0 7 "Player7" 1 1 1)
        1 7 "Player7" 1 1 1)
      = [⟨1, 7, "Player7", "aim_consistency", none, none, none, none,
          some 1, some 1, some 1, none, none⟩] ∧
    Decode.storedAll (Decode.interpret_angles
        (Decode.interpret_angles Decode.initState 0 7 "Player7" 1 1 1)
        1 7 "Player7" 2 1 1) = [] := by
  obtain ⟨hp1, hnone1, -, -, -, -⟩ :=
    aim_consistency_spec Decode.initState Decode2.initState 0 7 "Player7" 1 1 1
  have hempty : (lookupM Decode.initState.aim_patterns 7).getD
      ([] : List (Int × Int × Int × Int)) = [] := rfl
  rw [hempty] at hp1
  have hstored1 : Decode.storedAll
      (Decode.interpret_angles Decode.initState 0 7 "Player7" 1 1 1) = [] := by
    rw [hnone1 hempty]; rfl
  have hhist : (lookupM (Decode.interpret_angles Decode.initState 0 7 "Player7" 1 1 1).aim_patterns
      7).getD [] = [] ++ [((1 : Int), (1 : Int), (1 : Int), (0 : Int))] := by
    rw [hp1]; rfl
  constructor
  · obtain ⟨-, -, hsome2, -, -, -⟩ :=
      aim_consistency_spec (Decode.interpret_angles Decode.initState 0 7 "Player7" 1 1 1)
        Decode2.initState 1 7 "Player7" 1 1 1
    rw [hsome2 [] (1, 1, 1, 0) hhist, if_pos (by norm_num), hstored1]
    simp
  · obtain ⟨-, -, hsome2, -, -, -⟩ :=
      aim_consistency_spec (Decode.interpret_angles Decode.initState 0 7 "Player7" 1 1 1)
        Decode2.initState 1 7 "Player7" 2 1 1
    rw [hsome2 [] (1, 1, 1, 0) hhist, if_neg (by norm_num), hstored1]

/-! ### Claim C3: step lemmas and invariant -/

theorem Decode.step_weapon_inv (s : Decode.State) (ts : Int) (pid : Nat) (pn : String)
    (px py pz ax ay az eT : Int) (flags : Nat)
    (h1 : s.weapon_usage = []) (h2 : (Decode.storedAll s).all noFireHit = true) :
    (Decode.interpret_weapon_usage
        (Decode.interpret_angles (Decode.interpret_position s ts pid pn px py pz)
          ts pid pn ax ay az) ts pid pn eT flags).weapon_usage = [] ∧
    (Decode.storedAll (Decode.interpret_weapon_usage
        (Decode.interpret_angles (Decode.interpret_position s ts pid pn px py pz)
          ts pid pn ax ay az) ts pid pn eT flags)).all noFireHit = true := by
  set s1 := Decode.interpret_position s ts pid pn px py pz with hs1
  have h1a : s1.weapon_usage = [] := by
    rw [hs1, Decode.interpret_position_weapon_usage]; exact h1
  have h2a : (Decode.storedAll s1).all noFireHit = true := by
    rcases Decode.interpret_position_storedAll s ts pid pn px py pz with he | ⟨v, he⟩
    · rw [hs1, he]; exact h2
    · rw [hs1, he, List.all_append, h2]; rfl
  set s2 := Decode.interpret_angles s1 ts pid pn ax ay az with hs2
  have h1b : s2.weapon_usage = [] := by
    rw [hs2, Decode.interpret_angles_weapon_usage]; exact h1a
  have h2b : (Decode.storedAll s2).all noFireHit = true := by
    rcases Decode.interpret_angles_storedAll s1 ts pid pn ax ay az with he | he
    · rw [hs2, he]; exact h2a
    · rw [hs2, he, List.all_append, h2a]; rfl
  obtain ⟨h1c, h2c⟩ := Decode.interpret_weapon_usage_of_empty s2 ts pid pn eT flags h1b
  refine ⟨h1c, ?_⟩
  rcases h2c with he | he
  · rw [he]; exact h2b
  · rw [he, List.all_append, h2b]; rfl

theorem Decode2.step_weapon_inv2 (s : Decode2.State) (ts : Int) (pid : Nat) (pn : String)
    (px py pz ax ay az eT : Int) (flags : Nat)
    (h1 : s.weapon_usage = []) (h2 : s.stored.all noFireHit = true) :
    (Decode2.interpret_weapon_usage
        (Decode2.interpret_angles (Decode2.interpret_position s ts pid pn px py pz)
          ts pid pn ax ay az) ts pid pn eT flags).weapon_usage = [] ∧
    ((Decode2.interpret_weapon_usage
        (Decode2.interpret_angles (Decode2.interpret_position s ts pid pn px py pz)
          ts pid pn ax ay az) ts pid pn eT flags).stored).all noFireHit = true := by
  set s1 := Decode2.interpret_position s ts pid pn px py pz with hs1
  have h1a : s1.weapon_usage = [] := by
    rw [hs1, Decode2.interpret_position_weapon_usage2]; exact h1
  have h2a : s1.stored.all noFireHit = true := by
    rcases Decode2.interpret_position_stored s ts pid pn px py pz with he | ⟨v, he⟩
    · rw [hs1, he]; exact h2
    · rw [hs1, he, List.all_append, h2]; rfl
  set s2 := Decode2.interpret_angles s1 ts pid pn ax ay az with hs2
  have h1b : s2.weapon_usage = [] := by
    rw [hs2, Decode2.interpret_angles_weapon_usage2]; exact h1a
  have h2b : s2.stored.all noFireHit = true := by
    rcases Decode2.interpret_angles_stored s1 ts pid pn ax ay az with he | he
    · rw [hs2, he]; exact h2a
    · rw [hs2, he, List.all_append, h2a]; rfl
  obtain ⟨h1c, h2c⟩ := Decode2.interpret_weapon_usage_of_empty2 s2 ts pid pn eT flags h1b
  refine ⟨h1c, ?_⟩
  rcases h2c with he | he
  · rw [he]; exact h2b
  · rw [he, List.all_append, h2b]; rfl

theorem Decode.process_all_weapon_inv (rs : List Record) :
    ∀ s : Decode.State, s.weapon_usage = [] → (Decode.storedAll s).all noFireHit = true →
      (Decode.process_all s rs).weapon_usage = [] ∧
      (Decode.storedAll (Decode.process_all s rs)).all noFireHit = true := by
  induction rs with
  | nil => exact fun s h1 h2 => ⟨h1, h2⟩
  | cons r rs ih =>
      intro s h1 h2
      have h := Decode.step_weapon_inv s r.timestamp (Decode.extract_player_id r.eFlags)
        ("Player" ++ toString (Decode.extract_player_id r.eFlags))
        r.pos_x r.pos_y r.pos_z r.angle_x r.angle_y 0 r.eType r.eFlags h1 h2
      exact ih (Decode.process_packet s r) h.1 h.2

theorem Decode2.process_all_weapon_inv2 (rs : List Record) :
    ∀ s : Decode2.State, s.weapon_usage = [] → s.stored.all noFireHit = true →
      (Decode2.process_all s rs).weapon_usage = [] ∧
      ((Decode2.process_all s rs).stored).all noFireHit = true := by
  induction rs with
  | nil => exact fun s h1 h2 => ⟨h1, h2⟩
  | cons r rs ih =>
      intro s h1 h2
      have h := Decode2.step_weapon_inv2 s r.timestamp (Decode2.extract_player_id r.eFlags)
        ("Player" ++ toString (Decode2.extract_player_id r.eFlags))
        r.pos_x r.pos_y r.pos_z r.angle_x r.angle_y 0 r.eType r.eFlags h1 h2
      exact ih (Decode2.process_packet s r) h.1 h.2

/-! ### Claim C3 -/

/-- C3.  For every input sequence of decoded records, in both variants
the per-player `weapon_usage` dict stays empty for the whole session (no
code path inserts a player: the fire and hit branches that would do so
are themselves guarded by membership in the dict), and consequently no
`fire` row and no `hit` row is ever stored, for any input. -/
theorem weapon_usage_forever_empty (rs : List Record) :
    (Decode.process_all Decode.initState rs).weapon_usage = [] ∧
    (Decode.storedAll (Decode.process_all Decode.initState rs)).all noFireHit = true ∧
    (Decode2.process_all Decode2.initState rs).weapon_usage = [] ∧
    ((Decode2.process_all Decode2.initState rs).stored).all noFireHit = true := by
  obtain ⟨h1, h2⟩ := Decode.process_all_weapon_inv rs Decode.initState rfl rfl
  obtain ⟨h3, h4⟩ := Decode2.process_all_weapon_inv2 rs Decode2.initState rfl rfl
  exact ⟨h1, h2, h3, h4⟩

/-! ### Claim C8: history-length lemmas -/

theorem Decode.histLen_process_packet (s : Decode.State) (r : Record) (pid : Nat) :
    Decode.histLen (Decode.process_packet s r) pid
      = if Decode.extract_player_id r.eFlags = pid then Decode.histLen s pid + 1
        else Decode.histLen s pid := by
  have hchain : (Decode.process_packet s r).aim_patterns
      = insertM s.aim_patterns (Decode.extract_player_id r.eFlags)
          ((lookupM s.aim_patterns (Decode.extract_player_id r.eFlags)).getD []
            ++ [(r.angle_x, r.angle_y, 0, r.timestamp)]) := by
    show (Decode.interpret_weapon_usage _ _ _ _ _ _).aim_patterns = _
    rw [Decode.interpret_weapon_usage_aim_patterns, Decode.interpret_angles_aim_patterns,
      Decode.interpret_position_aim_patterns]
  by_cases hp : Decode.extract_player_id r.eFlags = pid
  · rw [if_pos hp]
    unfold Decode.histLen
    rw [hchain, hp, lookupM_insert_self]
    simp
  · rw [if_neg hp]
    unfold Decode.histLen
    rw [hchain, lookupM_insert_ne _ _ _ _ (fun he => hp he.symm)]

theorem Decode2.histLen_process_packet2 (s : Decode2.State) (r : Record) (pid : Nat) :
    Decode2.histLen (Decode2.process_packet s r) pid
      = if Decode2.extract_player_id r.eFlags = pid then Decode2.histLen s pid + 1
        else Decode2.histLen s pid := by
  have hchain : (Decode2.process_packet s r).aim_patterns
      = insertM s.aim_patterns (Decode2.extract_player_id r.eFlags)
          ((lookupM s.aim_patterns (Decode2.extract_player_id r.eFlags)).getD []
            ++ [(r.angle_x, r.angle_y, 0, r.timestamp)]) := by
    show (Decode2.interpret_weapon_usage _ _ _ _ _ _).aim_patterns = _
    rw [Decode2.interpret_weapon_usage_aim_patterns2, Decode2.interpret_angles_aim_patterns2,
      Decode2.interpret_position_aim_patterns2]
  by_cases hp : Decode2.extract_player_id r.eFlags = pid
  · rw [if_pos hp]
    unfold Decode2.histLen
    rw [hchain, hp, lookupM_insert_self]
    simp
  · rw [if_neg hp]
    unfold Decode2.histLen
    rw [hchain, lookupM_insert_ne _ _ _ _ (fun he => hp he.symm)]

theorem Decode.histLen_process_all (rs : List Record) :
    ∀ (s : Decode.State) (pid : Nat),
      Decode.histLen (Decode.process_all s rs) pid
        = Decode.histLen s pid
          + rs.countP (fun r => Decode.extract_player_id r.eFlags == pid) := by
  induction rs with
  | nil => intro s pid; simp [Decode.process_all]
  | cons r rs ih =>
      intro s pid
      have hstep := Decode.histLen_process_packet s r pid
      have : Decode.process_all s (r :: rs) = Decode.process_all (Decode.process_packet s r) rs := rfl
      rw [this, ih (Decode.process_packet s r) pid, hstep, List.countP_cons]
      by_cases hp : Decode.extract_player_id r.eFlags = pid
      · simp [hp]
        omega
      · simp [hp]

theorem Decode2.histLen_process_all2 (rs : List Record) :
    ∀ (s : Decode2.State) (pid : Nat),
      Decode2.histLen (Decode2.process_all s rs) pid
        = Decode2.histLen s pid
          + rs.countP (fun r => Decode2.extract_player_id r.eFlags == pid) := by
  induction rs with
  | nil => intro s pid; simp [Decode2.process_all]
  | cons r rs ih =>
      intro s pid
      have hstep := Decode2.histLen_process_packet2 s r pid
      have : Decode2.process_all s (r :: rs) = Decode2.process_all (Decode2.process_packet s r) rs := rfl
      rw [this, ih (Decode2.process_packet s r) pid, hstep, List.countP_cons]
      by_cases hp : Decode2.extract_player_id r.eFlags = pid
      · simp [hp]
        omega
      · simp [hp]

/-! ### Claim C8 -/

/-- C8, counterexample.  The claim says the per-player aim history is a
bounded ring buffer whose length never exceeds a fixed bound.  In fact
`_interpret_angles` only ever appends: for any candidate bound `B`,
processing `B + 1` identical records (here the all-zero record, player 0)
leaves player 0's history at length `B + 1`, so no bound exists. -/
theorem aim_history_unbounded :
    ¬ ∃ B : Nat, ∀ (rs : List Record) (pid : Nat),
      Decode.histLen (Decode.process_all Decode.initState rs) pid ≤ B := by
  rintro ⟨B, hB⟩
  have hcount : (List.replicate (B + 1) (⟨0, 0, 0, 0, 0, 0, 0, 0⟩ : Record)).countP
      (fun r => Decode.extract_player_id r.eFlags == 0) = B + 1 := by
    rw [List.countP_eq_length.mpr]
    · exact List.length_replicate _ _
    · intro a ha
      rw [List.eq_of_mem_replicate ha]
      rfl
  have hlen := Decode.histLen_process_all
    (List.replicate (B + 1) (⟨0, 0, 0, 0, 0, 0, 0, 0⟩ : Record)) Decode.initState 0
  rw [hcount] at hlen
  have hinit : Decode.histLen Decode.initState 0 = 0 := rfl
  rw [hinit] at hlen
  have := hB (List.replicate (B + 1) (⟨0, 0, 0, 0, 0, 0, 0, 0⟩ : Record)) 0
  omega

/-- C8, amended.  The per-player aim history is NOT a bounded ring
buffer: in both variants it retains every entry ever pushed, so after
processing a record sequence its length equals the exact number of
records carrying that player id — in particular it contains the last two
entries, but it grows without bound. -/
theorem aim_history_length_eq_count (rs : List Record) (pid : Nat) :
    Decode.histLen (Decode.process_all Decode.initState rs) pid
      = rs.countP (fun r => Decode.extract_player_id r.eFlags == pid) ∧
    Decode2.histLen (Decode2.process_all Decode2.initState rs) pid
      = rs.countP (fun r => Decode2.extract_player_id r.eFlags == pid) := by
  constructor
  · rw [Decode.histLen_process_all rs Decode.initState pid,
      show Decode.histLen Decode.initState pid = 0 from rfl]
    omega
  · rw [Decode2.histLen_process_all2 rs Decode2.initState pid,
      show Decode2.histLen Decode2.initState pid = 0 from rfl]
    omega

/-! ### Claim C9: buffer/flush lemmas -/

theorem Decode.storeAll_append (s : Decode.State) (xs : List (ActionRow Nat))
    (a : ActionRow Nat) :
    Decode.storeAll s (xs ++ [a]) = Decode.store_action (Decode.storeAll s xs) a := by
  induction xs generalizing s with
  | nil => rfl
  | cons b bs ih => exact ih (Decode.store_action s b)

theorem Decode.storeAll_inv (as : List (ActionRow Nat)) :
    (Decode.storeAll Decode.initState as).actions_buffer.length = as.length % 100 ∧
    (Decode.storeAll Decode.initState as).flushed.map List.length
      = List.replicate (as.length / 100) 100 ∧
    (Decode.storeAll Decode.initState as).flushed.flatten
        ++ (Decode.storeAll Decode.initState as).actions_buffer = as := by
  induction as using List.reverseRecOn with
  | nil => exact ⟨rfl, rfl, rfl⟩
  | append_singleton xs a ih =>
      obtain ⟨h1, h2, h3⟩ := ih
      rw [Decode.storeAll_append]
      have hbuflen : ((Decode.storeAll Decode.initState xs).actions_buffer ++ [a]).length
          = xs.length % 100 + 1 := by
        rw [List.length_append, h1]; rfl
      have hmodlt : xs.length % 100 < 100 := Nat.mod_lt _ (by omega)
      by_cases hful : 100 ≤ ((Decode.storeAll Decode.initState xs).actions_buffer ++ [a]).length
      · have h99 : xs.length % 100 = 99 := by omega
        have hq : (xs.length + 1) / 100 = xs.length / 100 + 1 := by omega
        have hm : (xs.length + 1) % 100 = 0 := by omega
        simp only [Decode.store_action]
        rw [if_pos hful]
        refine ⟨?_, ?_, ?_⟩
        · simp [hm]
        · simp only [List.map_append, h2, List.map_cons, List.map_nil,
            List.length_append, List.length_singleton]
          rw [show (Decode.storeAll Decode.initState xs).actions_buffer.length + 1 = 100 by
              rw [h1, h99],
            hq, List.replicate_succ']
        · simp only [List.flatten_append, List.flatten_cons, List.flatten_nil,
            List.append_nil]
          rw [← List.append_assoc, h3]
      · have hm : (xs.length + 1) % 100 = xs.length % 100 + 1 := by omega
        have hq : (xs.length + 1) / 100 = xs.length / 100 := by omega
        simp only [Decode.store_action]
        rw [if_neg hful]
        refine ⟨?_, ?_, ?_⟩
        · simp only [List.length_append, List.length_singleton]
          rw [h1, hm]
        · simp only [List.length_append, List.length_singleton, hq]
          exact h2
        · rw [← List.append_assoc, h3]

/-! ### Claim C9 -/

/-- C9.  In `decode.py`, for every sequence of stored events a flush to
the database sink happens exactly each time the buffered-but-unflushed
count reaches the threshold 100, and `close` flushes once more exactly
when the buffer is non-empty: after `n` stored events and `close` the
flushed batches have sizes `[100, …, 100, n % 100]` (`n / 100` full
batches, the remainder batch only if `n % 100 ≠ 0`), every stored event
is flushed in order (nothing is lost on graceful shutdown), and the
buffer is empty.  In particular 250 stored events followed by `close`
produce exactly 3 flushes of sizes 100, 100 and 50. -/
theorem flush_threshold_spec (as : List (ActionRow Nat)) :
    (Decode.close (Decode.storeAll Decode.initState as)).flushed.map List.length
        = List.replicate (as.length / 100) 100
          ++ (if as.length % 100 = 0 then [] else [as.length % 100]) ∧
    (Decode.close (Decode.storeAll Decode.initState as)).flushed.flatten = as ∧
    (Decode.close (Decode.storeAll Decode.initState as)).actions_buffer = [] ∧
    (Decode.close (Decode.storeAll Decode.initState
        (List.replicate 250 blankRow))).flushed.map List.length = [100, 100, 50] := by
  have key : ∀ bs : List (ActionRow Nat),
      (Decode.close (Decode.storeAll Decode.initState bs)).flushed.map List.length
          = List.replicate (bs.length / 100) 100
            ++ (if bs.length % 100 = 0 then [] else [bs.length % 100]) ∧
      (Decode.close (Decode.storeAll Decode.initState bs)).flushed.flatten = bs ∧
      (Decode.close (Decode.storeAll Decode.initState bs)).actions_buffer = [] := by
    intro bs
    obtain ⟨h1, h2, h3⟩ := Decode.storeAll_inv bs
    by_cases hz : bs.length % 100 = 0
    · have hbuf : (Decode.storeAll Decode.initState bs).actions_buffer = [] :=
        List.length_eq_zero.mp (by rw [h1, hz])
      have hclosed : Decode.close (Decode.storeAll Decode.initState bs)
          = Decode.storeAll Decode.initState bs := by
        unfold Decode.close
        rw [if_pos (by rw [hbuf]; rfl)]
      rw [hclosed]
      rw [hbuf, List.append_nil] at h3
      refine ⟨?_, h3, hbuf⟩
      · rw [h2, if_pos hz, List.append_nil]
    · have hbufne : ¬ (Decode.storeAll Decode.initState bs).actions_buffer.isEmpty = true := by
        cases hb : (Decode.storeAll Decode.initState bs).actions_buffer with
        | nil => rw [hb] at h1; simp at h1; omega
        | cons c cs => simp
      unfold Decode.close
      rw [if_neg hbufne]
      refine ⟨?_, ?_, rfl⟩
      · simp only [List.map_append, h2, List.map_cons, List.map_nil, h1]
        rw [if_neg hz]
      · simp only [List.flatten_append, List.flatten_cons, List.flatten_nil, List.append_nil]
        exact h3
  refine ⟨(key as).1, (key as).2.1, (key as).2.2, ?_⟩
  have h250 := (key (List.replicate 250 blankRow)).1
  rw [List.length_replicate] at h250
  norm_num at h250
  exact h250

/-! ### Claim C10: z-component lemmas -/

theorem Decode.step_z_inv (s : Decode.State) (ts : Int) (pid : Nat) (pn : String)
    (px py pz ax ay eT : Int) (flags : Nat)
    (h1 : s.aim_patterns.all (fun p => p.2.all entryZ) = true)
    (h2 : (Decode.storedAll s).all rowZ = true) :
    ((Decode.interpret_weapon_usage
        (Decode.interpret_angles (Decode.interpret_position s ts pid pn px py pz)
          ts pid pn ax ay 0) ts pid pn eT flags).aim_patterns.all
        (fun p => p.2.all entryZ)) = true ∧
    (Decode.storedAll (Decode.interpret_weapon_usage
        (Decode.interpret_angles (Decode.interpret_position s ts pid pn px py pz)
          ts pid pn ax ay 0) ts pid pn eT flags)).all rowZ = true := by
  set s1 := Decode.interpret_position s ts pid pn px py pz with hs1
  have haim1 : s1.aim_patterns = s.aim_patterns := by
    rw [hs1, Decode.interpret_position_aim_patterns]
  have h2a : (Decode.storedAll s1).all rowZ = true := by
    rcases Decode.interpret_position_storedAll s ts pid pn px py pz with he | ⟨v, he⟩
    · rw [hs1, he]; exact h2
    · rw [hs1, he, List.all_append, h2]; rfl
  set s2 := Decode.interpret_angles s1 ts pid pn ax ay 0 with hs2
  have hold : ((lookupM s1.aim_patterns pid).getD []).all entryZ = true := by
    cases hlk : lookupM s1.aim_patterns pid with
    | none => rfl
    | some o =>
        have hmem := lookupM_mem hlk
        rw [haim1] at hmem
        have := (List.all_eq_true.mp h1) _ hmem
        simpa using this
  have haim2 : s2.aim_patterns.all (fun p => p.2.all entryZ) = true := by
    rw [hs2, Decode.interpret_angles_aim_patterns]
    refine insertM_all _ _ _ _ (by rw [haim1]; exact h1) ?_
    simp only
    rw [List.all_append, hold]
    rfl
  have h2b : (Decode.storedAll s2).all rowZ = true := by
    rcases Decode.interpret_angles_storedAll s1 ts pid pn ax ay 0 with he | he
    · rw [hs2, he]; exact h2a
    · rw [hs2, he, List.all_append, h2a]; rfl
  refine ⟨?_, ?_⟩
  · rw [Decode.interpret_weapon_usage_aim_patterns]; exact haim2
  · rcases Decode.interpret_weapon_usage_storedAll s2 ts pid pn eT flags with he | ⟨a, ha, he⟩
    · rw [he]; exact h2b
    · rw [he, List.all_append, h2b]
      have hrz : rowZ a = true := by
        rcases ha with ha | ha | ha <;> simp [rowZ, ha]
      simp [hrz]

theorem Decode2.step_z_inv2 (s : Decode2.State) (ts : Int) (pid : Nat) (pn : String)
    (px py pz ax ay eT : Int) (flags : Nat)
    (h1 : s.aim_patterns.all (fun p => p.2.all entryZ) = true)
    (h2 : s.stored.all rowZ = true) :
    ((Decode2.interpret_weapon_usage
        (Decode2.interpret_angles (Decode2.interpret_position s ts pid pn px py pz)
          ts pid pn ax ay 0) ts pid pn eT flags).aim_patterns.all
        (fun p => p.2.all entryZ)) = true ∧
    ((Decode2.interpret_weapon_usage
        (Decode2.interpret_angles (Decode2.interpret_position s ts pid pn px py pz)
          ts pid pn ax ay 0) ts pid pn eT flags).stored).all rowZ = true := by
  set s1 := Decode2.interpret_position s ts pid pn px py pz with hs1
  have haim1 : s1.aim_patterns = s.aim_patterns := by
    rw [hs1, Decode2.interpret_position_aim_patterns2]
  have h2a : s1.stored.all rowZ = true := by
    rcases Decode2.interpret_position_stored s ts pid pn px py pz with he | ⟨v, he⟩
    · rw [hs1, he]; exact h2
    · rw [hs1, he, List.all_append, h2]; rfl
  set s2 := Decode2.interpret_angles s1 ts pid pn ax ay 0 with hs2
  have hold : ((lookupM s1.aim_patterns pid).getD []).all entryZ = true := by
    cases hlk : lookupM s1.aim_patterns pid with
    | none => rfl
    | some o =>
        have hmem := lookupM_mem hlk
        rw [haim1] at hmem
        have := (List.all_eq_true.mp h1) _ hmem
        simpa using this
  have haim2 : s2.aim_patterns.all (fun p => p.2.all entryZ) = true := by
    rw [hs2, Decode2.interpret_angles_aim_patterns2]
    refine insertM_all _ _ _ _ (by rw [haim1]; exact h1) ?_
    simp only
    rw [List.all_append, hold]
    rfl
  have h2b : s2.stored.all rowZ = true := by
    rcases Decode2.interpret_angles_stored s1 ts pid pn ax ay 0 with he | he
    · rw [hs2, he]; exact h2a
    · rw [hs2, he, List.all_append, h2a]; rfl
  refine ⟨?_, ?_⟩
  · rw [Decode2.interpret_weapon_usage_aim_patterns2]; exact haim2
  · rcases Decode2.interpret_weapon_usage_stored s2 ts pid pn eT flags with he | ⟨a, ha, he⟩
    · rw [he]; exact h2b
    · rw [he, List.all_append, h2b]
      have hrz : rowZ a = true := by
        rcases ha with ha | ha | ha <;> simp [rowZ, ha]
      simp [hrz]

theorem Decode.process_all_z_inv (rs : List Record) :
    ∀ s : Decode.State, s.aim_patterns.all (fun p => p.2.all entryZ) = true →
      (Decode.storedAll s).all rowZ = true →
      ((Decode.process_all s rs).aim_patterns.all (fun p => p.2.all entryZ)) = true ∧
      (Decode.storedAll (Decode.process_all s rs)).all rowZ = true := by
  induction rs with
  | nil => exact fun s h1 h2 => ⟨h1, h2⟩
  | cons r rs ih =>
      intro s h1 h2
      have h := Decode.step_z_inv s r.timestamp (Decode.extract_player_id r.eFlags)
        ("Player" ++ toString (Decode.extract_player_id r.eFlags))
        r.pos_x r.pos_y r.pos_z r.angle_x r.angle_y r.eType r.eFlags h1 h2
      exact ih (Decode.process_packet s r) h.1 h.2

theorem Decode2.process_all_z_inv2 (rs : List Record) :
    ∀ s : Decode2.State, s.aim_patterns.all (fun p => p.2.all entryZ) = true →
      s.stored.all rowZ = true →
      ((Decode2.process_all s rs).aim_patterns.all (fun p => p.2.all entryZ)) = true ∧
      ((Decode2.process_all s rs).stored).all rowZ = true := by
  induction rs with
  | nil => exact fun s h1 h2 => ⟨h1, h2⟩
  | cons r rs ih =>
      intro s h1 h2
      have h := Decode2.step_z_inv2 s r.timestamp (Decode2.extract_player_id r.eFlags)
        ("Player" ++ toString (Decode2.extract_player_id r.eFlags))
        r.pos_x r.pos_y r.pos_z r.angle_x r.angle_y r.eType r.eFlags h1 h2
      exact ih (Decode2.process_packet s r) h.1 h.2

/-! ### Claim C10 -/

/-- C10.  Both `_process_packet` variants pass the constant `0` as the
third aim-angle component, so after processing any record sequence every
entry of every player's aim history has `angle_z = 0` (hence the z axis
never contributes to the sum of absolute differences), and every stored
`aim_consistency` row carries `angle_z = 0`. -/
theorem angle_z_constant_zero (rs : List Record) :
    ((Decode.process_all Decode.initState rs).aim_patterns.all
        (fun p => p.2.all entryZ)) = true ∧
    (Decode.storedAll (Decode.process_all Decode.initState rs)).all rowZ = true ∧
    ((Decode2.process_all Decode2.initState rs).aim_patterns.all
        (fun p => p.2.all entryZ)) = true ∧
    ((Decode2.process_all Decode2.initState rs).stored).all rowZ = true := by
  obtain ⟨h1, h2⟩ := Decode.process_all_z_inv rs Decode.initState rfl rfl
  obtain ⟨h3, h4⟩ := Decode2.process_all_z_inv2 rs Decode2.initState rfl rfl
  exact ⟨h1, h2, h3, h4⟩
